import Mathlib

/-!
Shallow embedding of the credit-ledger / generation-lifecycle / weekly-report
backend (`src/functions/main.py`, `src/functions/config.py`,
`src/functions/ai_simulator.py`).

The Firestore document store is modelled as an explicit state value `FDb`:
a user table (userId to integer credit balance), a global append-only
transaction log, and the list of generation-request documents.  A Firestore
transaction that raises aborts with no writes, so the transactional helpers
return `Except`: on `error` the caller keeps the unchanged state.

Python numbers that flow through the anomaly detector are modelled as `ℚ`
(the comparisons the code performs on them are exact on the values involved).
-/

namespace CaseStudy

/-- Transaction type strings "deduction" / "refund" written by the ledger. -/
inductive TxType
  | deduction
  | refund
deriving DecidableEq, Repr

/-- One document of a user's `transactions` subcollection, tagged with the
owning userId. -/
structure Txn where
  userId : String
  ttype : TxType
  credits : Int
  generationRequestId : String
deriving DecidableEq, Repr

/-- Status strings "pending" / "completed" / "failed" of a generation
request document. -/
inductive ReqStatus
  | pending
  | completed
  | failed
deriving DecidableEq, Repr

/-- One document of the `generationRequests` collection. -/
structure GenReq where
  id : String
  userId : String
  model : String
  style : String
  color : String
  size : String
  cost : Int
  status : ReqStatus
  imageUrl : Option String
deriving DecidableEq, Repr

/-- The Firestore state the three handlers read and write. -/
structure FDb where
  users : List (String × Int)
  transactions : List Txn
  genRequests : List GenReq
deriving DecidableEq, Repr

/-- Association-list lookup by string key (first match), the embedding of a
document read by id. -/
def alookup {β : Type} : List (String × β) → String → Option β
  | [], _ => none
  | (k, v) :: rest, key => if k = key then some v else alookup rest key

/-- Apply `firestore.Increment(delta)` to every entry of the user table whose
key is `uid`. -/
def updateBalance (users : List (String × Int)) (uid : String) (delta : Int) :
    List (String × Int) :=
  users.map fun p => if p.1 = uid then (p.1, p.2 + delta) else p

/-- First generation-request document with the given id. -/
def findReq : List GenReq → String → Option GenReq
  | [], _ => none
  | r :: rest, gid => if r.id = gid then some r else findReq rest gid

/-- The `update` call that sets `status` (and on success `imageUrl`) of the
document with id `gid`; `url = none` leaves `imageUrl` untouched. -/
def updateReqStatus (reqs : List GenReq) (gid : String) (st : ReqStatus)
    (url : Option String) : List GenReq :=
  reqs.map fun r =>
    if r.id = gid then
      { r with status := st,
               imageUrl := match url with | some u => some u | none => r.imageUrl }
    else r

/-- Request body fields of `createGenerationRequest` as read by `data.get`:
`none` is an absent key, `some ""` a present but falsy value. -/
structure ReqBody where
  userId : Option String
  model : Option String
  style : Option String
  color : Option String
  size : Option String
  prompt : Option String
deriving DecidableEq, Repr

/-- Python truthiness test `not value` on an optional string field. -/
def falsy : Option String → Bool
  | none => true
  | some s => s = ""

/-- The `missing_fields` list built at `main.py:172-177`, in source order. -/
def missingFieldsOf (b : ReqBody) : List String :=
  (if falsy b.userId then ["userId"] else []) ++
  (if falsy b.model then ["model"] else []) ++
  (if falsy b.style then ["style"] else []) ++
  (if falsy b.color then ["color"] else []) ++
  (if falsy b.size then ["size"] else [])

/-- The catalog data loaded from the `styles` / `colors` / `sizes`
collections. -/
structure Catalog where
  styles : List String
  colors : List String
  sizes : List (String × Int)
deriving Repr

/-- Errors the atomic deduction transaction can raise. -/
inductive DeductError
  | userNotFound
  | insufficientCredits
deriving DecidableEq, Repr

/-- `_atomic_deduct_and_generate` (`main.py:304-361`): inside one Firestore
transaction, read the user's credits; raise NOT_FOUND if absent; raise
FAILED_PRECONDITION if `credits < credit_cost`; otherwise decrement the
balance, create the generation request in `pending` status and append the
`deduction` transaction.  An error aborts the transaction: no writes. -/
def atomic_deduct_and_generate (db : FDb) (userId : String) (creditCost : Int)
    (generationId : String) (body : ReqBody) : Except DeductError FDb :=
  match alookup db.users userId with
  | none => .error .userNotFound
  | some currentCredits =>
    if currentCredits < creditCost then
      .error .insufficientCredits
    else
      .ok { db with
        users := updateBalance db.users userId (-creditCost),
        genRequests := db.genRequests ++
          [{ id := generationId, userId := userId,
             model := body.model.getD "", style := body.style.getD "",
             color := body.color.getD "", size := body.size.getD "",
             cost := creditCost, status := .pending, imageUrl := none }],
        transactions := db.transactions ++
          [{ userId := userId, ttype := .deduction, credits := creditCost,
             generationRequestId := generationId }] }

/-- `refund_transaction` inside `_refund_credits` (`main.py:381-406`): in its
own Firestore transaction, read the user (raise if absent), increment the
balance by `cost` and append a `refund` transaction referencing the
generation request. -/
def refund_transaction (db : FDb) (userId : String) (cost : Int)
    (generationId : String) : Except Unit FDb :=
  match alookup db.users userId with
  | none => .error ()
  | some _ =>
    .ok { db with
      users := updateBalance db.users userId cost,
      transactions := db.transactions ++
        [{ userId := userId, ttype := .refund, credits := cost,
           generationRequestId := generationId }] }

/-- The response of `createGenerationRequest`, by branch of the handler. -/
inductive RespKind
  | missingFields (fields : List String)
  | invalidStyle
  | invalidColor
  | invalidSize
  | invalidModel
  | userNotFound
  | insufficientCredits
  | generationFailedRefunded
  | internalError
  | success (generationRequestId : String) (deductedCredits : Int)
      (imageUrl : String)
deriving DecidableEq, Repr

/-- The HTTP status code the handler attaches to each response
(`main.py:179-199,216,263-301`). -/
def statusOf : RespKind → Nat
  | .missingFields _ => 400
  | .invalidStyle => 400
  | .invalidColor => 400
  | .invalidSize => 400
  | .invalidModel => 400
  | .userNotFound => 404
  | .insufficientCredits => 400
  | .generationFailedRefunded => 500
  | .internalError => 500
  | .success _ _ _ => 200

/-- Whether a response is one of the input-validation 400s issued before any
database access beyond the catalog. -/
def isValidationError : RespKind → Bool
  | .missingFields _ => true
  | .invalidStyle => true
  | .invalidColor => true
  | .invalidSize => true
  | .invalidModel => true
  | _ => false

/-- Placeholder image URL per model (`config.AIModelsConfig.PLACEHOLDER_URLS`). -/
def placeholderUrl (model : String) : String :=
  if model = "model-a" then
    "https://storage.googleapis.com/proudcity/mebanenc/uploads/2018/02/placeholder-image.png"
  else
    "https://www.russorizio.com/wp-content/uploads/2016/07/ef3-placeholder-image.jpg"

/-- The input-validation prefix of `createGenerationRequest`
(`main.py:170-199`), in source order: required-fields check, then style,
color, size against the catalog, then the model identifier.  `some resp` is
an early 400 return, `none` means validation passed. -/
def validateRequest (cat : Catalog) (b : ReqBody) : Option RespKind :=
  if falsy b.userId || falsy b.model || falsy b.style ||
      falsy b.color || falsy b.size then
    some (.missingFields (missingFieldsOf b))
  else if b.style.getD "" ∉ cat.styles then some .invalidStyle
  else if b.color.getD "" ∉ cat.colors then some .invalidColor
  else if (alookup cat.sizes (b.size.getD "")).isNone then some .invalidSize
  else if b.model.getD "" ≠ "model-a" ∧ b.model.getD "" ≠ "model-b" then
    some .invalidModel
  else none

/-- The post-deduction tail of `createGenerationRequest` (`main.py:237-301`),
given the state `db1` left by the committed deduction transaction.  On
simulator success, mark the request completed with its placeholder URL and
answer 200.  On simulator failure the code first runs `_refund_credits`,
then marks the request failed and raises the INTERNAL error mapped to 500;
when the refund transaction's writes fail to commit (`refundWriteOk = false`)
`_refund_credits` re-raises, so the status update is skipped and the generic
exception handler answers 500 on the state left by the deduction. -/
def runGeneration (db1 : FDb) (userId : String) (creditCost : Int)
    (generationId model : String) (simOk refundWriteOk : Bool) :
    RespKind × FDb :=
  if simOk then
    (.success generationId creditCost (placeholderUrl model),
     { db1 with genRequests := (updateReqStatus db1.genRequests generationId
         ReqStatus.completed (some (placeholderUrl model))) })
  else if refundWriteOk then
    match refund_transaction db1 userId creditCost generationId with
    | .error _ => (.internalError, db1)
    | .ok db2 =>
      (.generationFailedRefunded,
       { db2 with genRequests := (updateReqStatus db2.genRequests generationId
           ReqStatus.failed none) })
  else (.internalError, db1)

/-- `createGenerationRequest` (`main.py:146-301`): validate the input, look
the user up (404 when absent), run the atomic deduction (mapping
FAILED_PRECONDITION to the 400 `insufficientCredits` answer), then handle the
simulator outcome.  `simOk` is the outcome of the AI simulator call (a random
draw in the source); `refundWriteOk` models whether the refund transaction's
writes commit. -/
def createGenerationRequest (cat : Catalog) (db : FDb) (body : ReqBody)
    (generationId : String) (simOk : Bool) (refundWriteOk : Bool) :
    RespKind × FDb :=
  match validateRequest cat body with
  | some resp => (resp, db)
  | none =>
    match alookup db.users (body.userId.getD "") with
    | none => (.userNotFound, db)
    | some _ =>
      match atomic_deduct_and_generate db (body.userId.getD "")
          ((alookup cat.sizes (body.size.getD "")).getD 0) generationId body with
      | .error .userNotFound => (.userNotFound, db)
      | .error .insufficientCredits => (.insufficientCredits, db)
      | .ok db1 =>
        runGeneration db1 (body.userId.getD "")
          ((alookup cat.sizes (body.size.getD "")).getD 0) generationId
          (body.model.getD "") simOk refundWriteOk

/-! ## Weekly report aggregation and anomaly detection -/

/-- Per-key counters of the `byModel` / `byStyle` / `bySize` maps. -/
structure CatStats where
  total : Nat
  completed : Nat
  failed : Nat
  failureRate : ℚ
deriving DecidableEq, Repr

/-- The report document built by `scheduleWeeklyReport` (`main.py:521-530`),
without the timestamp and anomaly fields. -/
structure Report where
  totalRequests : Nat
  totalCreditsSpent : Int
  totalCreditsRefunded : Int
  successRate : ℚ
  byModel : List (String × CatStats)
  byStyle : List (String × CatStats)
  bySize : List (String × CatStats)
deriving DecidableEq, Repr

/-- The fields of one in-window generation-request document that the
aggregation loop reads (`main.py:541-545`); `status` stays a raw string, as
the loop compares it against "completed" / "failed" literally. -/
structure AggDoc where
  model : String
  style : String
  size : String
  status : String
  cost : Int
deriving DecidableEq, Repr

/-- Increment the `total` and, per status, `completed` / `failed` counters
(`main.py:561-565`). -/
def incStats (s : CatStats) (status : String) : CatStats :=
  { s with
    total := s.total + 1,
    completed := if status = "completed" then s.completed + 1 else s.completed,
    failed := if status = "failed" then s.failed + 1 else s.failed }

/-- Insert-if-absent then increment of one dimension map entry
(`main.py:557-565`); new keys are appended in encounter order as in a Python
dict. -/
def bump (m : List (String × CatStats)) (k : String) (status : String) :
    List (String × CatStats) :=
  let m1 := if (alookup m k).isSome then m else m ++ [(k, ⟨0, 0, 0, 0⟩)]
  m1.map fun p => if p.1 = k then (p.1, incStats p.2 status) else p

/-- Running counters of the aggregation loop (`main.py:532-565`). -/
structure AggAcc where
  totalRequests : Nat
  spent : Int
  refunded : Int
  successful : Nat
  byModel : List (String × CatStats)
  byStyle : List (String × CatStats)
  bySize : List (String × CatStats)
deriving DecidableEq, Repr

/-- One iteration of the aggregation loop over an in-window request. -/
def aggStep (a : AggAcc) (d : AggDoc) : AggAcc :=
  { totalRequests := a.totalRequests + 1,
    spent := if d.status = "completed" then a.spent + d.cost else a.spent,
    refunded := if d.status = "failed" then a.refunded + d.cost else a.refunded,
    successful := if d.status = "completed" then a.successful + 1 else a.successful,
    byModel := bump a.byModel d.model d.status,
    byStyle := bump a.byStyle d.style d.status,
    bySize := bump a.bySize d.size d.status }

/-- Initial counters of the aggregation loop. -/
def aggInit : AggAcc := ⟨0, 0, 0, 0, [], [], []⟩

/-- The post-scan pass that derives each entry's failure rate
(`main.py:574-578`); the code guards on `total > 0`. -/
def finishRates (m : List (String × CatStats)) : List (String × CatStats) :=
  m.map fun p =>
    (p.1, if p.2.total > 0 then
            { p.2 with failureRate := (p.2.failed : ℚ) / (p.2.total : ℚ) * 100 }
          else p.2)

/-- The aggregation phase of `scheduleWeeklyReport` (`main.py:521-578`): scan
the in-window requests, then derive the success and failure rates (both
derivations are guarded by `totalRequests > 0`). -/
def aggregate (docs : List AggDoc) : Report :=
  let a := docs.foldl aggStep aggInit
  { totalRequests := a.totalRequests,
    totalCreditsSpent := a.spent,
    totalCreditsRefunded := a.refunded,
    successRate :=
      if a.totalRequests > 0 then
        (a.successful : ℚ) / (a.totalRequests : ℚ) * 100
      else 0,
    byModel := if a.totalRequests > 0 then finishRates a.byModel else a.byModel,
    byStyle := if a.totalRequests > 0 then finishRates a.byStyle else a.byStyle,
    bySize := if a.totalRequests > 0 then finishRates a.bySize else a.bySize }

/-- Per-key fields of a previous report's dimension maps as `_detect_anomalies`
reads them, every access through `.get` with a default. -/
structure PrevCatStats where
  total : Option Int
  failureRate : Option ℚ
deriving DecidableEq, Repr

/-- A previous report document as `_detect_anomalies` reads it: every field
accessed via `.get` (or a key-presence test), so each may be absent. -/
structure PrevReport where
  successRate : Option ℚ
  totalRequests : Option Int
  totalCreditsSpent : Option Int
  byModel : Option (List (String × PrevCatStats))
  byStyle : Option (List (String × PrevCatStats))
  bySize : Option (List (String × PrevCatStats))
deriving DecidableEq, Repr

namespace AnomalyThresholds

/-- `config.AnomalyThresholds`: a drop to below half of the previous success
rate is drastic (the 0.5 factor). -/
def SUCCESS_RATE_DROP_FACTOR : ℚ := 1 / 2

/-- More than 3x the previous requests or credits is a spike. -/
def USAGE_SPIKE_MULTIPLIER : ℚ := 3

/-- Minimum previous-period sample count for a reliable comparison. -/
def MIN_SAMPLES_FOR_ANOMALY : Int := 10

/-- Failure-rate percentage below which spikes are suppressed. -/
def SIGNIFICANT_FAILURE_RATE : ℚ := 20

/-- A more-than-doubled per-category failure rate is a spike. -/
def FAILURE_RATE_SPIKE_MULTIPLIER : ℚ := 2

end AnomalyThresholds

/-- The anomaly messages `_detect_anomalies` can emit, one constructor per
distinct format string of `main.py:618-664` plus the baseline message of
`main.py:586`; the carried numbers are the values interpolated into the
message. -/
inductive Anomaly
  | successRateDrop (prev cur : ℚ)
  | requestSpike (cur prev : Int)
  | creditSpike (cur prev : Int)
  | failureRateSpike (dim key : String) (cur prev : ℚ)
  | noAnomalies
  | noBaseline
deriving DecidableEq, Repr

/-- The per-category failure-rate check (`main.py:646-661`) for one dimension
key of the current report against the previous report: skipped entirely when
the dimension key is absent from the previous report; per entry, skipped when
the previous report has no truthy entry for that name or its `total` is not
above the minimum sample count. -/
def checkDim (dim : String) (cur : List (String × CatStats))
    (prevOpt : Option (List (String × PrevCatStats))) : List Anomaly :=
  match prevOpt with
  | none => []
  | some prev =>
    cur.filterMap fun p =>
      match alookup prev p.1 with
      | none => none
      | some pstats =>
        if pstats.total.getD 0 > AnomalyThresholds.MIN_SAMPLES_FOR_ANOMALY then
          if p.2.failureRate > pstats.failureRate.getD 0 *
                AnomalyThresholds.FAILURE_RATE_SPIKE_MULTIPLIER ∧
              p.2.failureRate > AnomalyThresholds.SIGNIFICANT_FAILURE_RATE then
            some (.failureRateSpike dim p.1 p.2.failureRate
              (pstats.failureRate.getD 0))
          else none
        else none

/-- Anomaly 1 (`main.py:611-620`): drop in overall success rate; the previous
rate defaults to 100 when absent. -/
def successRateCheck (current : Report) (previous : PrevReport) :
    List Anomaly :=
  if previous.successRate.getD 100 > 0 ∧
      current.successRate < previous.successRate.getD 100 *
        AnomalyThresholds.SUCCESS_RATE_DROP_FACTOR then
    [Anomaly.successRateDrop (previous.successRate.getD 100)
      current.successRate]
  else []

/-- Anomaly 2 (`main.py:622-631`): spike in total requests; the previous
count defaults to 0 when absent. -/
def requestSpikeCheck (current : Report) (previous : PrevReport) :
    List Anomaly :=
  if previous.totalRequests.getD 0 > AnomalyThresholds.MIN_SAMPLES_FOR_ANOMALY ∧
      (current.totalRequests : ℚ) > (previous.totalRequests.getD 0 : ℚ) *
        AnomalyThresholds.USAGE_SPIKE_MULTIPLIER then
    [Anomaly.requestSpike (current.totalRequests : Int)
      (previous.totalRequests.getD 0)]
  else []

/-- Anomaly 3 (`main.py:633-642`): spike in credit consumption; the previous
amount defaults to 0 when absent. -/
def creditSpikeCheck (current : Report) (previous : PrevReport) :
    List Anomaly :=
  if previous.totalCreditsSpent.getD 0 >
      AnomalyThresholds.MIN_SAMPLES_FOR_ANOMALY ∧
      (current.totalCreditsSpent : ℚ) > (previous.totalCreditsSpent.getD 0 : ℚ) *
        AnomalyThresholds.USAGE_SPIKE_MULTIPLIER then
    [Anomaly.creditSpike current.totalCreditsSpent
      (previous.totalCreditsSpent.getD 0)]
  else []

/-- The concatenation of the four checks of `_detect_anomalies`, in source
order. -/
def triggeredAnomalies (current : Report) (previous : PrevReport) :
    List Anomaly :=
  successRateCheck current previous ++
  requestSpikeCheck current previous ++
  creditSpikeCheck current previous ++
  checkDim "byModel" current.byModel previous.byModel ++
  checkDim "byStyle" current.byStyle previous.byStyle ++
  checkDim "bySize" current.bySize previous.bySize

/-- `_detect_anomalies` (`main.py:606-669`): the four independent checks, then
the single no-anomalies message when none fired.  Absent previous fields
default as in the source: `successRate` to 100, `totalRequests` and
`totalCreditsSpent` to 0. -/
def detect_anomalies (current : Report) (previous : PrevReport) :
    List Anomaly :=
  if (triggeredAnomalies current previous).isEmpty then [Anomaly.noAnomalies]
  else triggeredAnomalies current previous

/-- The anomaly step of `scheduleWeeklyReport` (`main.py:580-587`): compare
against the previous report when one exists, otherwise emit the single
baseline message. -/
def reportAnomalies (current : Report) (previous : Option PrevReport) :
    List Anomaly :=
  match previous with
  | some prev => detect_anomalies current prev
  | none => [Anomaly.noBaseline]

/-- `scheduleWeeklyReport` (`main.py:485-600`) restricted to its computation:
aggregate the in-window requests and attach the anomaly comparison against
the most recent previous report. -/
def scheduleWeeklyReport (docs : List AggDoc) (previous : Option PrevReport) :
    Report × List Anomaly :=
  let r := aggregate docs
  (r, reportAnomalies r previous)

/-! ## Derived predicates and concrete example inputs -/

/-- Whether a transaction document is of type `t` and references generation
request `gid`. -/
def txMatches (tx : Txn) (t : TxType) (gid : String) : Bool :=
  decide (tx.ttype = t ∧ tx.generationRequestId = gid)

/-- Number of transactions of type `t` referencing generation request `gid`. -/
def countTx (txs : List Txn) (t : TxType) (gid : String) : Nat :=
  (txs.filter fun tx => txMatches tx t gid).length

/-- The conjunction of all input checks of `main.py:170-199`: required fields
truthy, style / color / size in the catalog, model one of the two known
identifiers. -/
def validInput (cat : Catalog) (b : ReqBody) : Prop :=
  falsy b.userId = false ∧ falsy b.model = false ∧ falsy b.style = false ∧
  falsy b.color = false ∧ falsy b.size = false ∧
  b.style.getD "" ∈ cat.styles ∧ b.color.getD "" ∈ cat.colors ∧
  (alookup cat.sizes (b.size.getD "")).isSome = true ∧
  (b.model.getD "" = "model-a" ∨ b.model.getD "" = "model-b")

instance (cat : Catalog) (b : ReqBody) : Decidable (validInput cat b) := by
  unfold validInput; infer_instance

/-- Constructors of `Anomaly` that correspond to a triggered threshold check,
as opposed to the two informational messages. -/
def Anomaly.isTriggered : Anomaly → Bool
  | .successRateDrop _ _ => true
  | .requestSpike _ _ => true
  | .creditSpike _ _ => true
  | .failureRateSpike _ _ _ _ => true
  | .noAnomalies => false
  | .noBaseline => false

/-- Every entry of a dimension map has been incremented at least once. -/
def entriesPos (m : List (String × CatStats)) : Prop :=
  ∀ k st, alookup m k = some st → 1 ≤ st.total

/-- Example catalog mirroring the seeded styles / colors / size costs. -/
def catW : Catalog :=
  ⟨["realistic"], ["vibrant"], [("512x512", 1), ("1024x1024", 3), ("1024x1792", 4)]⟩

/-- A user table with one user holding 50 credits. -/
def dbW : FDb := ⟨[("u1", 50)], [], []⟩

/-- A user table with one user holding 2 credits. -/
def dbPoor : FDb := ⟨[("u1", 2)], [], []⟩

/-- A fully valid request body for the 1-credit size. -/
def bodyW : ReqBody :=
  ⟨some "u1", some "model-a", some "realistic", some "vibrant",
   some "512x512", some "a cat"⟩

/-- The valid body asking for the 4-credit size. -/
def bodyCostly : ReqBody := { bodyW with size := some "1024x1792" }

/-- A body whose userId is present but empty. -/
def bodyNoUser : ReqBody := { bodyW with userId := some "" }

/-- A body with an unknown style. -/
def bodyBadStyle : ReqBody := { bodyW with style := some "cubist" }

/-- The spec scenario's previous report: successRate 80, totalRequests 10. -/
def prevW : PrevReport := ⟨some 80, some 10, some 0, none, none, none⟩

/-- The spec scenario's current report: successRate 30, totalRequests 40. -/
def curW : Report := ⟨40, 0, 0, 30, [], [], []⟩

/-- A previous report document missing every field. -/
def prevMissing : PrevReport := ⟨none, none, none, none, none, none⟩

/-- Three in-window requests: two completed (costs 3 and 1), one failed
(cost 4). -/
def docsW : List AggDoc :=
  [⟨"model-a", "realistic", "1024x1024", "completed", 3⟩,
   ⟨"model-b", "anime", "512x512", "completed", 1⟩,
   ⟨"model-a", "realistic", "1024x1792", "failed", 4⟩]

/-! ## Lookup and update lemmas -/

theorem alookup_updateBalance (m : List (String × Int)) (uid : String) (d : Int) :
    alookup (updateBalance m uid d) uid = (alookup m uid).map (· + d) := by
  induction m with
  | nil => rfl
  | cons p rest ih =>
    simp only [updateBalance, List.map] at ih ⊢
    by_cases h : p.1 = uid
    · rw [if_pos h]
      simp [alookup, h]
    · rw [if_neg h]
      simp [alookup, h, ih]

theorem alookup_append {β : Type} (l1 l2 : List (String × β)) (key : String) :
    alookup (l1 ++ l2) key =
      match alookup l1 key with
      | some v => some v
      | none => alookup l2 key := by
  induction l1 with
  | nil => rfl
  | cons p rest ih =>
    by_cases h : p.1 = key <;> simp [alookup, h, ih]

/-! ## Claim theorems -/

/-- C1: a deduction attempted when the user's current balance is strictly
below the requested amount raises InsufficientCredits, and the aborted
transaction performs no mutation — the handler answers `insufficientCredits`
with the store unchanged (balance, transaction log and generation requests
all as before); consequently a successful deduction from a non-negative
balance leaves the balance non-negative. -/
theorem deduct_insufficient_guard :
    (∀ (db : FDb) (uid gid : String) (amount : Int) (body : ReqBody) (c : Int),
      alookup db.users uid = some c → c < amount →
      atomic_deduct_and_generate db uid amount gid body =
        .error DeductError.insufficientCredits) ∧
    (∀ (cat : Catalog) (db : FDb) (body : ReqBody) (gid : String) (s r : Bool),
      (createGenerationRequest cat db body gid s r).1 =
        RespKind.insufficientCredits →
      (createGenerationRequest cat db body gid s r).2 = db) ∧
    (∀ (db : FDb) (uid gid : String) (amount : Int) (body : ReqBody)
        (db2 : FDb) (c b : Int),
      0 ≤ c → alookup db.users uid = some c →
      atomic_deduct_and_generate db uid amount gid body = .ok db2 →
      alookup db2.users uid = some b → 0 ≤ b) := by
  refine ⟨?_, ?_, ?_⟩
  · intro db uid gid amount body c hc hlt
    unfold atomic_deduct_and_generate
    rw [hc]
    simp [hlt]
  · intro cat db body gid s r
    unfold createGenerationRequest runGeneration
    repeat' split
    all_goals simp
  · intro db uid gid amount body db2 c b hc0 hc hok hb
    unfold atomic_deduct_and_generate at hok
    rw [hc] at hok
    by_cases hlt : c < amount
    · simp [hlt] at hok
    · simp only [hlt, if_false, Except.ok.injEq] at hok
      rw [← hok] at hb
      simp only [alookup_updateBalance, hc, Option.map_some', Option.some.injEq] at hb
      omega

/-- Witness for C1 on the spec scenario: balance 2, request costs 4. -/
theorem deduct_insufficient_guard_witness :
    atomic_deduct_and_generate dbPoor "u1" 4 "g1" bodyCostly =
      .error DeductError.insufficientCredits :=
  deduct_insufficient_guard.1 dbPoor "u1" "g1" 4 bodyCostly 2 (by decide)
    (by decide)

/-- C3: when a deduction of `amount` commits and is then followed by a refund
of the same `amount` for the same user, the user's balance is exactly its
pre-deduction value. -/
theorem deduct_refund_roundtrip (db db1 db2 : FDb) (uid gid gid2 : String)
    (amount : Int) (body : ReqBody)
    (h1 : atomic_deduct_and_generate db uid amount gid body = .ok db1)
    (h2 : refund_transaction db1 uid amount gid2 = .ok db2) :
    alookup db2.users uid = alookup db.users uid := by
  unfold atomic_deduct_and_generate at h1
  cases hc : alookup db.users uid with
  | none => rw [hc] at h1; exact absurd h1 (by simp)
  | some c =>
    rw [hc] at h1
    by_cases hlt : c < amount
    · simp [hlt] at h1
    · simp only [hlt, if_false, Except.ok.injEq] at h1
      unfold refund_transaction at h2
      cases hc1 : alookup db1.users uid with
      | none => rw [hc1] at h2; exact absurd h2 (by simp)
      | some c1 =>
        rw [hc1] at h2
        simp only [Except.ok.injEq] at h2
        rw [← h2]
        simp only [alookup_updateBalance]
        rw [← h1]
        simp only [alookup_updateBalance, hc]
        simp

/-- Witness for C3: deduct 1 from the 50-credit user, refund 1, balance 50. -/
theorem deduct_refund_roundtrip_witness :
    ∃ db1 db2 : FDb,
      atomic_deduct_and_generate dbW "u1" 1 "g1" bodyW = .ok db1 ∧
      refund_transaction db1 "u1" 1 "g1" = .ok db2 ∧
      alookup db2.users "u1" = alookup dbW.users "u1" := by
  refine ⟨_, _, rfl, rfl, ?_⟩
  exact deduct_refund_roundtrip dbW _ _ "u1" "g1" "g1" 1 bodyW rfl rfl

theorem validateRequest_none_iff (cat : Catalog) (b : ReqBody) :
    validateRequest cat b = none ↔ validInput cat b := by
  constructor
  · intro h
    unfold validateRequest at h
    split_ifs at h with h1 h2 h3 h4 h5
    simp only [Bool.or_eq_true, not_or, Bool.not_eq_true] at h1
    simp only [not_not] at h2 h3
    simp only [Option.isNone_iff_eq_none] at h4
    simp only [not_and_or, not_not] at h5
    refine ⟨h1.1.1.1.1, h1.1.1.1.2, h1.1.1.2, h1.1.2, h1.2, h2, h3, ?_, h5⟩
    cases halo : alookup cat.sizes (b.size.getD "") with
    | none => exact absurd halo h4
    | some v => rfl
  · intro hv
    obtain ⟨hu, hm, hst, hco, hsz, hstyles, hcolors, hsome, hmodel⟩ := hv
    unfold validateRequest
    rw [if_neg (by simp [hu, hm, hst, hco, hsz]),
        if_neg (by simp [hstyles]),
        if_neg (by simp [hcolors]),
        if_neg (by simp [Option.isNone_iff_eq_none, Option.isSome_iff_ne_none.mp hsome]),
        if_neg (by tauto)]

theorem validateRequest_some_isValidationError (cat : Catalog) (b : ReqBody)
    (resp : RespKind) (h : validateRequest cat b = some resp) :
    isValidationError resp = true := by
  unfold validateRequest at h
  split_ifs at h <;> (injection h with h2; subst h2; simp [isValidationError])

/-- C6: a `createGenerationRequest` input that fails validation (a required
field missing or falsy, or a style / color / size / model outside the known
identifiers) is answered with a validation error before any ledger mutation:
the store (balances, transaction log, generation requests) is returned
unchanged. -/
theorem invalid_input_no_mutation (cat : Catalog) (db : FDb) (body : ReqBody)
    (gid : String) (s r : Bool) (h : ¬ validInput cat body) :
    isValidationError (createGenerationRequest cat db body gid s r).1 = true ∧
    (createGenerationRequest cat db body gid s r).2 = db := by
  cases hres : validateRequest cat body with
  | none => exact absurd ((validateRequest_none_iff cat body).mp hres) h
  | some resp =>
    unfold createGenerationRequest
    rw [hres]
    exact ⟨validateRequest_some_isValidationError cat body resp hres, rfl⟩

/-- Witness for C6: an unknown style is rejected with no mutation. -/
theorem invalid_input_no_mutation_witness :
    isValidationError
      (createGenerationRequest catW dbW bodyBadStyle "g1" true true).1 = true ∧
    (createGenerationRequest catW dbW bodyBadStyle "g1" true true).2 = dbW :=
  invalid_input_no_mutation catW dbW bodyBadStyle "g1" true true (by decide)

/-- C10: a body in which any of the five required fields is falsy (absent or
present-but-empty) is answered with the missing-fields 400 built from the
falsy fields, before any user lookup — the answer does not depend on the user
table and the store is unchanged, so an empty-string userId yields the
missing-field 400 rather than the 404 user-not-found. -/
theorem falsy_field_short_circuit (cat : Catalog) (db db2 : FDb)
    (body : ReqBody) (gid : String) (s r : Bool)
    (h : (falsy body.userId || falsy body.model || falsy body.style ||
          falsy body.color || falsy body.size) = true) :
    (createGenerationRequest cat db body gid s r).1 =
      .missingFields (missingFieldsOf body) ∧
    statusOf (createGenerationRequest cat db body gid s r).1 = 400 ∧
    (createGenerationRequest cat db body gid s r).2 = db ∧
    (createGenerationRequest cat db2 body gid s r).1 =
      (createGenerationRequest cat db body gid s r).1 ∧
    (falsy body.userId = true → "userId" ∈ missingFieldsOf body) ∧
    (falsy body.model = true → "model" ∈ missingFieldsOf body) ∧
    (falsy body.style = true → "style" ∈ missingFieldsOf body) ∧
    (falsy body.color = true → "color" ∈ missingFieldsOf body) ∧
    (falsy body.size = true → "size" ∈ missingFieldsOf body) := by
  have hval : validateRequest cat body =
      some (.missingFields (missingFieldsOf body)) := by
    unfold validateRequest
    rw [if_pos h]
  unfold createGenerationRequest
  rw [hval]
  refine ⟨rfl, rfl, rfl, rfl, ?_, ?_, ?_, ?_, ?_⟩ <;>
    intro hf <;> simp [missingFieldsOf, hf]

/-- Witness for C10: a present but empty userId is reported as missing. -/
theorem falsy_field_short_circuit_witness :
    (createGenerationRequest catW dbW bodyNoUser "g1" true true).1 =
      .missingFields (missingFieldsOf bodyNoUser) ∧
    "userId" ∈ missingFieldsOf bodyNoUser := by
  have h := falsy_field_short_circuit catW dbW dbW bodyNoUser "g1" true true
    (by decide)
  exact ⟨h.1, h.2.2.2.2.1 (by decide)⟩

theorem findReq_append (l1 l2 : List GenReq) (g : String) :
    findReq (l1 ++ l2) g =
      match findReq l1 g with
      | some r => some r
      | none => findReq l2 g := by
  induction l1 with
  | nil => rfl
  | cons r rest ih =>
    by_cases h : r.id = g <;> simp [findReq, h, ih]

theorem findReq_updateReqStatus (l : List GenReq) (g : String) (st : ReqStatus)
    (url : Option String) :
    findReq (updateReqStatus l g st url) g =
      (findReq l g).map fun r =>
        { r with status := st,
                 imageUrl := match url with
                             | some u => some u
                             | none => r.imageUrl } := by
  induction l with
  | nil => rfl
  | cons r rest ih =>
    simp only [updateReqStatus, List.map] at ih ⊢
    by_cases h : r.id = g
    · rw [if_pos h]
      simp [findReq, h]
    · rw [if_neg h]
      simp [findReq, h, ih]

theorem atomic_deduct_ok (db : FDb) (uid gid : String) (cost : Int)
    (body : ReqBody) (db1 : FDb)
    (h : atomic_deduct_and_generate db uid cost gid body = .ok db1) :
    ∃ c, alookup db.users uid = some c ∧ ¬(c < cost) ∧
      db1 = { db with
        users := updateBalance db.users uid (-cost),
        genRequests := db.genRequests ++
          [{ id := gid, userId := uid,
             model := body.model.getD "", style := body.style.getD "",
             color := body.color.getD "", size := body.size.getD "",
             cost := cost, status := .pending, imageUrl := none }],
        transactions := db.transactions ++
          [{ userId := uid, ttype := .deduction, credits := cost,
             generationRequestId := gid }] } := by
  unfold atomic_deduct_and_generate at h
  cases hc : alookup db.users uid with
  | none => rw [hc] at h; cases h
  | some c =>
    rw [hc] at h
    by_cases hlt : c < cost
    · simp [hlt] at h
    · simp only [hlt, if_false, Except.ok.injEq] at h
      exact ⟨c, rfl, hlt, h.symm⟩

theorem refund_transaction_isOk (db : FDb) (uid gid : String) (cost c : Int)
    (h : alookup db.users uid = some c) :
    refund_transaction db uid cost gid =
      .ok { db with
        users := updateBalance db.users uid cost,
        transactions := db.transactions ++
          [{ userId := uid, ttype := .refund, credits := cost,
             generationRequestId := gid }] } := by
  unfold refund_transaction
  rw [h]

theorem refund_transaction_ok (db db2 : FDb) (uid gid : String) (cost : Int)
    (h : refund_transaction db uid cost gid = .ok db2) :
    db2 = { db with
      users := updateBalance db.users uid cost,
      transactions := db.transactions ++
        [{ userId := uid, ttype := .refund, credits := cost,
           generationRequestId := gid }] } := by
  unfold refund_transaction at h
  cases hc : alookup db.users uid with
  | none => rw [hc] at h; cases h
  | some c =>
    rw [hc] at h
    simp only [Except.ok.injEq] at h
    exact h.symm

/-- Counterexample to C4 as stated: with the simulator failing and the
compensating refund write also failing, the handler returns the 500 internal
error while the created request is still in `pending` status — it is not
marked `Failed`. -/
theorem pending_after_refund_write_failure :
    (createGenerationRequest catW dbW bodyW "g1" false false).1 =
      RespKind.internalError ∧
    (findReq (createGenerationRequest catW dbW bodyW "g1" false
        false).2.genRequests "g1").map GenReq.status =
      some ReqStatus.pending := by
  constructor <;> rfl

/-- C4 (amended): once `createGenerationRequest` returns, a request document
it created is `completed` when the simulator succeeded and `failed` when the
simulator failed and the compensating refund write committed; when the
refund write itself fails, the handler answers the internal error and the
request remains `pending`. -/
theorem terminal_status_after_handling (cat : Catalog) (db : FDb)
    (body : ReqBody) (gid : String) (s r : Bool)
    (hg : findReq db.genRequests gid = none) :
    ∀ req,
      findReq (createGenerationRequest cat db body gid s r).2.genRequests gid =
        some req →
      ((s = true → req.status = ReqStatus.completed) ∧
       (s = false → r = true → req.status = ReqStatus.failed) ∧
       (s = false → r = false → req.status = ReqStatus.pending ∧
         (createGenerationRequest cat db body gid s r).1 =
           RespKind.internalError)) := by
  intro req hreq
  unfold createGenerationRequest at hreq ⊢
  split at hreq
  · rw [hg] at hreq; cases hreq
  · rename_i hval
    split at hreq
    · rw [hg] at hreq; cases hreq
    · rename_i val huser
      split at hreq
      · rw [hg] at hreq; cases hreq
      · rw [hg] at hreq; cases hreq
      · rename_i db1 hded
        obtain ⟨c, hc, hlt, hdb1⟩ := atomic_deduct_ok _ _ _ _ _ _ hded
        have hfind1 : findReq db1.genRequests gid =
            some { id := gid, userId := body.userId.getD "",
                   model := body.model.getD "", style := body.style.getD "",
                   color := body.color.getD "", size := body.size.getD "",
                   cost := (alookup cat.sizes (body.size.getD "")).getD 0,
                   status := .pending, imageUrl := none } := by
          rw [hdb1]
          simp only [findReq_append, hg]
          simp [findReq]
        have husers1 : alookup db1.users (body.userId.getD "") =
            some (c + -((alookup cat.sizes (body.size.getD "")).getD 0)) := by
          rw [hdb1]
          simp [alookup_updateBalance, hc]
        unfold runGeneration at hreq ⊢
        by_cases hs : s = true
        · rw [if_pos hs] at hreq ⊢
          simp only [findReq_updateReqStatus, hfind1, Option.map_some',
            Option.some.injEq] at hreq
          refine ⟨fun _ => ?_, fun hs' _ => absurd hs (by simp [hs']),
                  fun hs' _ => absurd hs (by simp [hs'])⟩
          rw [← hreq]
        · rw [if_neg hs] at hreq ⊢
          by_cases hr : r = true
          · rw [if_pos hr] at hreq ⊢
            rw [refund_transaction_isOk db1 (body.userId.getD "") gid
              ((alookup cat.sizes (body.size.getD "")).getD 0) _ husers1]
              at hreq ⊢
            simp only [findReq_updateReqStatus, hfind1, Option.map_some',
              Option.some.injEq] at hreq
            refine ⟨fun hs' => absurd hs' hs, fun _ _ => ?_,
                    fun _ hr' => absurd hr (by simp [hr'])⟩
            rw [← hreq]
          · rw [if_neg hr] at hreq ⊢
            rw [hfind1] at hreq
            injection hreq with hreq
            refine ⟨fun hs' => absurd hs' hs, fun _ hr' => absurd hr' hr,
                    fun _ _ => ⟨?_, rfl⟩⟩
            rw [← hreq]

/-- Witness for the amended C4: a failing simulation with a committing refund
leaves the concrete request `failed`. -/
theorem terminal_status_after_handling_witness :
    (findReq (createGenerationRequest catW dbW bodyW "g1" false
        true).2.genRequests "g1").map GenReq.status = some ReqStatus.failed := by
  have hreq : findReq (createGenerationRequest catW dbW bodyW "g1" false
      true).2.genRequests "g1" = some ((createGenerationRequest catW dbW bodyW
      "g1" false true).2.genRequests.head (by decide)) := by decide
  have h := (terminal_status_after_handling catW dbW bodyW "g1" false true
    (by decide) _ hreq).2.1 rfl rfl
  rw [hreq, Option.map_some', h]

theorem countTx_append (l1 l2 : List Txn) (t : TxType) (g : String) :
    countTx (l1 ++ l2) t g = countTx l1 t g + countTx l2 t g := by
  simp [countTx, List.filter_append]

theorem countTx_eq_zero (l : List Txn) (t : TxType) (g : String) :
    countTx l t g = 0 ↔ ∀ tx ∈ l, txMatches tx t g = false := by
  constructor
  · intro h tx htx
    by_contra hne
    have hmem : tx ∈ l.filter fun tx => txMatches tx t g :=
      List.mem_filter.mpr ⟨htx, by simpa using hne⟩
    have : (l.filter fun tx => txMatches tx t g) = [] :=
      List.length_eq_zero.mp h
    rw [this] at hmem
    cases hmem
  · intro h
    have : (l.filter fun tx => txMatches tx t g) = [] := by
      rw [List.filter_eq_nil_iff]
      intro tx htx
      simp [h tx htx]
    simp [countTx, this]

/-- C2: for a generation request the handler creates (fresh id `gid`),
once handling returns there is exactly one deduction transaction referencing
it; there is exactly one refund transaction referencing it if and only if the
request's final status is `failed`; and every transaction referencing it
(deduction or refund) carries exactly the request's cost in credits. -/
theorem request_accounting (cat : Catalog) (db : FDb) (body : ReqBody)
    (gid : String) (s r : Bool)
    (hd : countTx db.transactions TxType.deduction gid = 0)
    (hr : countTx db.transactions TxType.refund gid = 0)
    (hg : findReq db.genRequests gid = none) :
    ∀ req,
      findReq (createGenerationRequest cat db body gid s r).2.genRequests gid =
        some req →
      (countTx (createGenerationRequest cat db body gid s r).2.transactions
          TxType.deduction gid = 1 ∧
       ((req.status = ReqStatus.failed) ↔
         countTx (createGenerationRequest cat db body gid s r).2.transactions
           TxType.refund gid = 1) ∧
       (∀ tx ∈ (createGenerationRequest cat db body gid s r).2.transactions,
          txMatches tx TxType.deduction gid = true → tx.credits = req.cost) ∧
       (∀ tx ∈ (createGenerationRequest cat db body gid s r).2.transactions,
          txMatches tx TxType.refund gid = true → tx.credits = req.cost)) := by
  intro req hreq
  unfold createGenerationRequest at hreq ⊢
  split at hreq
  · rw [hg] at hreq; cases hreq
  · split at hreq
    · rw [hg] at hreq; cases hreq
    · rename_i val huser
      split at hreq
      · rw [hg] at hreq; cases hreq
      · rw [hg] at hreq; cases hreq
      · rename_i db1 hded
        obtain ⟨c, hc, hlt, hdb1⟩ := atomic_deduct_ok _ _ _ _ _ _ hded
        have hfind1 : findReq db1.genRequests gid =
            some { id := gid, userId := body.userId.getD "",
                   model := body.model.getD "", style := body.style.getD "",
                   color := body.color.getD "", size := body.size.getD "",
                   cost := (alookup cat.sizes (body.size.getD "")).getD 0,
                   status := .pending, imageUrl := none } := by
          rw [hdb1]
          simp only [findReq_append, hg]
          simp [findReq]
        have husers1 : alookup db1.users (body.userId.getD "") =
            some (c + -((alookup cat.sizes (body.size.getD "")).getD 0)) := by
          rw [hdb1]
          simp [alookup_updateBalance, hc]
        have hded_count : countTx db1.transactions TxType.deduction gid = 1 := by
          rw [hdb1]
          rw [countTx_append, hd]
          simp [countTx, txMatches]
        have href_count : countTx db1.transactions TxType.refund gid = 0 := by
          rw [hdb1]
          rw [countTx_append, hr]
          simp [countTx, txMatches]
        have hcred1 : ∀ tx ∈ db1.transactions, txMatches tx TxType.deduction
            gid = true ∨ txMatches tx TxType.refund gid = true →
            tx.credits = (alookup cat.sizes (body.size.getD "")).getD 0 := by
          rw [hdb1]
          intro tx htx hmatch
          rcases List.mem_append.mp htx with hold | hnew
          · rcases hmatch with hm | hm
            · exact absurd hm (by simp [(countTx_eq_zero _ _ _).mp hd tx hold])
            · exact absurd hm (by simp [(countTx_eq_zero _ _ _).mp hr tx hold])
          · simp only [List.mem_singleton] at hnew
            subst hnew
            rfl
        unfold runGeneration at hreq ⊢
        by_cases hs : s = true
        · rw [if_pos hs] at hreq ⊢
          simp only [findReq_updateReqStatus, hfind1, Option.map_some',
            Option.some.injEq] at hreq
          subst hreq
          refine ⟨hded_count, by simp [href_count], ?_, ?_⟩
          · intro tx htx hm
            exact hcred1 tx htx (Or.inl hm)
          · intro tx htx hm
            exact hcred1 tx htx (Or.inr hm)
        · rw [if_neg hs] at hreq ⊢
          by_cases hrb : r = true
          · rw [if_pos hrb] at hreq ⊢
            rw [refund_transaction_isOk db1 (body.userId.getD "") gid
              ((alookup cat.sizes (body.size.getD "")).getD 0) _ husers1]
              at hreq ⊢
            simp only [findReq_updateReqStatus, findReq_append, hfind1,
              Option.map_some', Option.some.injEq] at hreq
            subst hreq
            constructor
            · rw [countTx_append, hded_count]
              simp [countTx, txMatches]
            constructor
            · rw [countTx_append, href_count]
              simp [countTx, txMatches]
            constructor
            · intro tx htx hm
              rcases List.mem_append.mp htx with hold | hnew
              · exact hcred1 tx hold (Or.inl hm)
              · simp only [List.mem_singleton] at hnew
                subst hnew
                exact absurd hm (by simp [txMatches])
            · intro tx htx hm
              rcases List.mem_append.mp htx with hold | hnew
              · exact hcred1 tx hold (Or.inr hm)
              · simp only [List.mem_singleton] at hnew
                subst hnew
                rfl
          · rw [if_neg hrb] at hreq ⊢
            rw [hfind1] at hreq
            injection hreq with hreq
            subst hreq
            refine ⟨hded_count, by simp [href_count], ?_, ?_⟩
            · intro tx htx hm
              exact hcred1 tx htx (Or.inl hm)
            · intro tx htx hm
              exact hcred1 tx htx (Or.inr hm)

/-- Witness for C2 on the concrete failing-simulator run: one deduction and
one refund referencing the failed request, each of its cost. -/
theorem request_accounting_witness :
    countTx (createGenerationRequest catW dbW bodyW "g1" false
      true).2.transactions TxType.deduction "g1" = 1 ∧
    countTx (createGenerationRequest catW dbW bodyW "g1" false
      true).2.transactions TxType.refund "g1" = 1 := by
  have hreq : findReq (createGenerationRequest catW dbW bodyW "g1" false
      true).2.genRequests "g1" = some ((createGenerationRequest catW dbW bodyW
      "g1" false true).2.genRequests.head (by decide)) := by decide
  have h := request_accounting catW dbW bodyW "g1" false true (by decide)
    (by decide) (by decide) _ hreq
  refine ⟨h.1, ?_⟩
  refine h.2.1.mp ?_
  decide

theorem mem_successRateCheck (cur : Report) (prev : PrevReport) (x : Anomaly)
    (h : x ∈ successRateCheck cur prev) :
    x = Anomaly.successRateDrop (prev.successRate.getD 100) cur.successRate ∧
    prev.successRate.getD 100 > 0 ∧
    cur.successRate < prev.successRate.getD 100 *
      AnomalyThresholds.SUCCESS_RATE_DROP_FACTOR := by
  unfold successRateCheck at h
  split at h
  · rename_i hcond
    simp only [List.mem_singleton] at h
    exact ⟨h, hcond⟩
  · cases h

theorem mem_requestSpikeCheck (cur : Report) (prev : PrevReport) (x : Anomaly)
    (h : x ∈ requestSpikeCheck cur prev) :
    x = Anomaly.requestSpike (cur.totalRequests : Int)
      (prev.totalRequests.getD 0) ∧
    prev.totalRequests.getD 0 > AnomalyThresholds.MIN_SAMPLES_FOR_ANOMALY := by
  unfold requestSpikeCheck at h
  split at h
  · rename_i hcond
    simp only [List.mem_singleton] at h
    exact ⟨h, hcond.1⟩
  · cases h

theorem mem_creditSpikeCheck (cur : Report) (prev : PrevReport) (x : Anomaly)
    (h : x ∈ creditSpikeCheck cur prev) :
    x = Anomaly.creditSpike cur.totalCreditsSpent
      (prev.totalCreditsSpent.getD 0) ∧
    prev.totalCreditsSpent.getD 0 >
      AnomalyThresholds.MIN_SAMPLES_FOR_ANOMALY := by
  unfold creditSpikeCheck at h
  split at h
  · rename_i hcond
    simp only [List.mem_singleton] at h
    exact ⟨h, hcond.1⟩
  · cases h

theorem mem_checkDim (dim : String) (cur : List (String × CatStats))
    (prevOpt : Option (List (String × PrevCatStats))) (x : Anomaly)
    (h : x ∈ checkDim dim cur prevOpt) :
    ∃ k cf pf, x = Anomaly.failureRateSpike dim k cf pf := by
  cases prevOpt with
  | none => cases h
  | some prev =>
    unfold checkDim at h
    obtain ⟨p, hp, hfp⟩ := List.mem_filterMap.mp h
    split at hfp
    · cases hfp
    · split at hfp
      · split at hfp
        · injection hfp with hfp
          exact ⟨p.1, _, _, hfp.symm⟩
        · cases hfp
      · cases hfp

theorem triggered_cases (cur : Report) (prev : PrevReport) (x : Anomaly)
    (h : x ∈ triggeredAnomalies cur prev) :
    x ∈ successRateCheck cur prev ∨ x ∈ requestSpikeCheck cur prev ∨
    x ∈ creditSpikeCheck cur prev ∨
    (∃ dim k cf pf, x = Anomaly.failureRateSpike dim k cf pf) := by
  unfold triggeredAnomalies at h
  simp only [List.mem_append] at h
  rcases h with ((((h | h) | h) | h) | h) | h
  · exact Or.inl h
  · exact Or.inr (Or.inl h)
  · exact Or.inr (Or.inr (Or.inl h))
  · obtain ⟨k, cf, pf, hx⟩ := mem_checkDim _ _ _ _ h
    exact Or.inr (Or.inr (Or.inr ⟨"byModel", k, cf, pf, hx⟩))
  · obtain ⟨k, cf, pf, hx⟩ := mem_checkDim _ _ _ _ h
    exact Or.inr (Or.inr (Or.inr ⟨"byStyle", k, cf, pf, hx⟩))
  · obtain ⟨k, cf, pf, hx⟩ := mem_checkDim _ _ _ _ h
    exact Or.inr (Or.inr (Or.inr ⟨"bySize", k, cf, pf, hx⟩))

theorem mem_triggered_isTriggered (cur : Report) (prev : PrevReport)
    (x : Anomaly) (h : x ∈ triggeredAnomalies cur prev) :
    x.isTriggered = true := by
  rcases triggered_cases cur prev x h with h | h | h | ⟨d, k, cf, pf, hx⟩
  · obtain ⟨hx, -⟩ := mem_successRateCheck _ _ _ h
    subst hx; rfl
  · obtain ⟨hx, -⟩ := mem_requestSpikeCheck _ _ _ h
    subst hx; rfl
  · obtain ⟨hx, -⟩ := mem_creditSpikeCheck _ _ _ h
    subst hx; rfl
  · subst hx; rfl

theorem mem_detect (cur : Report) (prev : PrevReport) (x : Anomaly)
    (h : x ∈ detect_anomalies cur prev) :
    x = Anomaly.noAnomalies ∨ x ∈ triggeredAnomalies cur prev := by
  unfold detect_anomalies at h
  split at h
  · simp only [List.mem_singleton] at h
    exact Or.inl h
  · exact Or.inr h

/-- C7: the anomaly output of the weekly report is exactly one of three
mutually exclusive shapes — with no previous report, the single baseline
message; with a previous report and no check triggered, the single
no-anomalies message; otherwise exactly the triggered messages, which never
include the baseline or no-anomalies message. -/
theorem anomaly_output_shapes (cur : Report) (prevOpt : Option PrevReport) :
    (prevOpt = none → reportAnomalies cur prevOpt = [Anomaly.noBaseline]) ∧
    (∀ prev, prevOpt = some prev →
      (triggeredAnomalies cur prev = [] ∧
        reportAnomalies cur prevOpt = [Anomaly.noAnomalies]) ∨
      (triggeredAnomalies cur prev ≠ [] ∧
       reportAnomalies cur prevOpt = triggeredAnomalies cur prev ∧
       (∀ x ∈ reportAnomalies cur prevOpt, x.isTriggered = true) ∧
       Anomaly.noAnomalies ∉ reportAnomalies cur prevOpt ∧
       Anomaly.noBaseline ∉ reportAnomalies cur prevOpt)) := by
  constructor
  · intro hp
    subst hp
    rfl
  · intro prev hp
    subst hp
    have hra : reportAnomalies cur (some prev) = detect_anomalies cur prev :=
      rfl
    rw [hra]
    by_cases hE : (triggeredAnomalies cur prev).isEmpty = true
    · left
      refine ⟨List.isEmpty_iff.mp hE, ?_⟩
      unfold detect_anomalies
      rw [if_pos hE]
    · have hdet : detect_anomalies cur prev = triggeredAnomalies cur prev := by
        unfold detect_anomalies
        rw [if_neg hE]
      right
      refine ⟨fun hnil => hE (by simp [hnil]), hdet, ?_, ?_, ?_⟩
      · intro x hx
        rw [hdet] at hx
        exact mem_triggered_isTriggered _ _ _ hx
      · intro hmem
        rw [hdet] at hmem
        have := mem_triggered_isTriggered _ _ _ hmem
        exact absurd this (by simp [Anomaly.isTriggered])
      · intro hmem
        rw [hdet] at hmem
        have := mem_triggered_isTriggered _ _ _ hmem
        exact absurd this (by simp [Anomaly.isTriggered])

/-- Witness for C7: with no previous report the output is the single baseline
message. -/
theorem anomaly_output_shapes_witness :
    reportAnomalies curW none = [Anomaly.noBaseline] :=
  (anomaly_output_shapes curW none).1 rfl

/-- Counterexample to C5 as stated: on the scenario pair (previous successRate
80 and totalRequests 10, current successRate 30 and totalRequests 40) the
output is only the success-rate-drop message; no request-volume-spike message
is emitted, because the spike check requires the previous totalRequests to be
strictly greater than 10. -/
theorem scenario_spike_missing :
    detect_anomalies curW prevW = [Anomaly.successRateDrop 80 30] ∧
    Anomaly.requestSpike 40 10 ∉ detect_anomalies curW prevW := by
  have ha : successRateCheck curW prevW = [Anomaly.successRateDrop 80 30] := by
    unfold successRateCheck curW prevW
    norm_num [AnomalyThresholds.SUCCESS_RATE_DROP_FACTOR]
  have hb : requestSpikeCheck curW prevW = [] := by
    unfold requestSpikeCheck curW prevW
    norm_num [AnomalyThresholds.MIN_SAMPLES_FOR_ANOMALY]
  have hc : creditSpikeCheck curW prevW = [] := by
    unfold creditSpikeCheck curW prevW
    norm_num [AnomalyThresholds.MIN_SAMPLES_FOR_ANOMALY]
  have h1 : triggeredAnomalies curW prevW = [Anomaly.successRateDrop 80 30] := by
    unfold triggeredAnomalies
    rw [ha, hb, hc]
    rfl
  have h2 : detect_anomalies curW prevW = [Anomaly.successRateDrop 80 30] := by
    unfold detect_anomalies
    rw [h1]
    rfl
  refine ⟨h2, ?_⟩
  rw [h2]
  simp

/-- C5 (amended): for any report pair with previous successRate 80, previous
totalRequests 10 and current successRate 30, the anomalies include the
success-rate-drop message but never a request-volume-spike message, since the
spike check demands a previous totalRequests strictly above the
MIN_SAMPLES_FOR_ANOMALY threshold of 10. -/
theorem anomaly_scenario_amended (cur : Report) (prev : PrevReport)
    (hsr : prev.successRate = some 80) (htr : prev.totalRequests = some 10)
    (hcur : cur.successRate = 30) :
    Anomaly.successRateDrop 80 30 ∈ detect_anomalies cur prev ∧
    ∀ a b, Anomaly.requestSpike a b ∉ detect_anomalies cur prev := by
  have hcond : ((80:ℚ) > 0) ∧ ((30:ℚ) < 80 *
      AnomalyThresholds.SUCCESS_RATE_DROP_FACTOR) := by
    refine ⟨by norm_num, ?_⟩
    norm_num [AnomalyThresholds.SUCCESS_RATE_DROP_FACTOR]
  have hsrc : successRateCheck cur prev = [Anomaly.successRateDrop 80 30] := by
    unfold successRateCheck
    rw [hsr, hcur]
    simp only [Option.getD_some]
    rw [if_pos hcond]
  have hmem : Anomaly.successRateDrop 80 30 ∈ triggeredAnomalies cur prev := by
    unfold triggeredAnomalies
    simp [hsrc]
  have hdet : detect_anomalies cur prev = triggeredAnomalies cur prev := by
    unfold detect_anomalies
    rw [if_neg]
    intro hE
    rw [List.isEmpty_iff.mp hE] at hmem
    cases hmem
  constructor
  · rw [hdet]
    exact hmem
  · intro a b hab
    rcases mem_detect _ _ _ hab with hx | hx
    · cases hx
    · rcases triggered_cases _ _ _ hx with h1 | h1 | h1 | ⟨d, k, cf, pf, he⟩
      · obtain ⟨he, -⟩ := mem_successRateCheck _ _ _ h1
        cases he
      · obtain ⟨-, hgt⟩ := mem_requestSpikeCheck _ _ _ h1
        rw [htr] at hgt
        exact absurd hgt (by decide)
      · obtain ⟨he, -⟩ := mem_creditSpikeCheck _ _ _ h1
        cases he
      · cases he

/-- Witness for the amended C5 at the concrete scenario reports. -/
theorem anomaly_scenario_amended_witness :
    Anomaly.successRateDrop 80 30 ∈ detect_anomalies curW prevW ∧
    ∀ a b, Anomaly.requestSpike a b ∉ detect_anomalies curW prevW :=
  anomaly_scenario_amended curW prevW rfl rfl rfl

/-- C9: when the previous report lacks `successRate` it defaults to 100, so
the drop message is emitted exactly when the current successRate is below 50;
previous reports lacking `totalRequests` or `totalCreditsSpent` default those
to 0, which disables the corresponding spike checks. -/
theorem prev_missing_field_defaults (cur : Report) (prev : PrevReport)
    (h : prev.successRate = none) :
    ((∃ pc cc, Anomaly.successRateDrop pc cc ∈ detect_anomalies cur prev) ↔
      cur.successRate < 50) ∧
    (prev.totalRequests = none →
      ∀ a b, Anomaly.requestSpike a b ∉ detect_anomalies cur prev) ∧
    (prev.totalCreditsSpent = none →
      ∀ a b, Anomaly.creditSpike a b ∉ detect_anomalies cur prev) := by
  refine ⟨⟨?_, ?_⟩, ?_, ?_⟩
  · rintro ⟨pc, cc, hmem⟩
    rcases mem_detect _ _ _ hmem with hx | hx
    · cases hx
    · rcases triggered_cases _ _ _ hx with h1 | h1 | h1 | ⟨d, k, cf, pf, he⟩
      · obtain ⟨-, -, hlt⟩ := mem_successRateCheck _ _ _ h1
        rw [h] at hlt
        norm_num [AnomalyThresholds.SUCCESS_RATE_DROP_FACTOR] at hlt
        exact hlt
      · obtain ⟨he, -⟩ := mem_requestSpikeCheck _ _ _ h1
        cases he
      · obtain ⟨he, -⟩ := mem_creditSpikeCheck _ _ _ h1
        cases he
      · cases he
  · intro hlt
    have hcond : ((100:ℚ) > 0) ∧ (cur.successRate < 100 *
        AnomalyThresholds.SUCCESS_RATE_DROP_FACTOR) := by
      refine ⟨by norm_num, ?_⟩
      norm_num [AnomalyThresholds.SUCCESS_RATE_DROP_FACTOR]
      exact hlt
    have hsrc : successRateCheck cur prev =
        [Anomaly.successRateDrop 100 cur.successRate] := by
      unfold successRateCheck
      rw [h]
      simp only [Option.getD_none]
      rw [if_pos hcond]
    have hmem : Anomaly.successRateDrop 100 cur.successRate ∈
        triggeredAnomalies cur prev := by
      unfold triggeredAnomalies
      simp [hsrc]
    refine ⟨100, cur.successRate, ?_⟩
    unfold detect_anomalies
    rw [if_neg]
    · exact hmem
    · intro hE
      rw [List.isEmpty_iff.mp hE] at hmem
      cases hmem
  · intro htr a b hab
    rcases mem_detect _ _ _ hab with hx | hx
    · cases hx
    · rcases triggered_cases _ _ _ hx with h1 | h1 | h1 | ⟨d, k, cf, pf, he⟩
      · obtain ⟨he, -⟩ := mem_successRateCheck _ _ _ h1
        cases he
      · obtain ⟨-, hgt⟩ := mem_requestSpikeCheck _ _ _ h1
        rw [htr] at hgt
        exact absurd hgt (by decide)
      · obtain ⟨he, -⟩ := mem_creditSpikeCheck _ _ _ h1
        cases he
      · cases he
  · intro hcs a b hab
    rcases mem_detect _ _ _ hab with hx | hx
    · cases hx
    · rcases triggered_cases _ _ _ hx with h1 | h1 | h1 | ⟨d, k, cf, pf, he⟩
      · obtain ⟨he, -⟩ := mem_successRateCheck _ _ _ h1
        cases he
      · obtain ⟨he, -⟩ := mem_requestSpikeCheck _ _ _ h1
        cases he
      · obtain ⟨-, hgt⟩ := mem_creditSpikeCheck _ _ _ h1
        rw [hcs] at hgt
        exact absurd hgt (by decide)
      · cases he

/-- Witness for C9 on a previous report missing every field and the scenario
current report (successRate 30 < 50). -/
theorem prev_missing_field_defaults_witness :
    (∃ pc cc, Anomaly.successRateDrop pc cc ∈
      detect_anomalies curW prevMissing) ∧
    (∀ a b, Anomaly.requestSpike a b ∉ detect_anomalies curW prevMissing) ∧
    (∀ a b, Anomaly.creditSpike a b ∉ detect_anomalies curW prevMissing) := by
  have h := prev_missing_field_defaults curW prevMissing rfl
  exact ⟨h.1.mpr (by norm_num [curW]), h.2.1 rfl, h.2.2 rfl⟩

theorem foldl_aggStep_totalRequests (docs : List AggDoc) (a : AggAcc) :
    (docs.foldl aggStep a).totalRequests = a.totalRequests + docs.length := by
  induction docs generalizing a with
  | nil => simp
  | cons d rest ih =>
    simp only [List.foldl, ih, aggStep, List.length_cons]
    omega

theorem foldl_aggStep_spent (docs : List AggDoc) (a : AggAcc) :
    (docs.foldl aggStep a).spent = a.spent +
      ((docs.filter fun d => d.status = "completed").map AggDoc.cost).sum := by
  induction docs generalizing a with
  | nil => simp
  | cons d rest ih =>
    by_cases hd : d.status = "completed" <;>
      (simp [List.foldl, ih, aggStep, List.filter_cons, hd]; try ring)

theorem foldl_aggStep_refunded (docs : List AggDoc) (a : AggAcc) :
    (docs.foldl aggStep a).refunded = a.refunded +
      ((docs.filter fun d => d.status = "failed").map AggDoc.cost).sum := by
  induction docs generalizing a with
  | nil => simp
  | cons d rest ih =>
    by_cases hd : d.status = "failed" <;>
      (simp [List.foldl, ih, aggStep, List.filter_cons, hd]; try ring)

theorem foldl_aggStep_successful (docs : List AggDoc) (a : AggAcc) :
    (docs.foldl aggStep a).successful = a.successful +
      (docs.filter fun d => d.status = "completed").length := by
  induction docs generalizing a with
  | nil => simp
  | cons d rest ih =>
    by_cases hd : d.status = "completed" <;>
      (simp [List.foldl, ih, aggStep, List.filter_cons, hd]; try omega)

theorem alookup_bumpmap (m1 : List (String × CatStats)) (k status k' : String) :
    alookup (m1.map fun p =>
      if p.1 = k then (p.1, incStats p.2 status) else p) k' =
      (alookup m1 k').map fun v =>
        if k' = k then incStats v status else v := by
  induction m1 with
  | nil => rfl
  | cons p rest ih =>
    simp only [List.map]
    by_cases h1 : p.1 = k
    · rw [if_pos h1]
      simp only [alookup]
      by_cases h2 : p.1 = k'
      · rw [if_pos h2, if_pos h2]
        have hkk : k' = k := h2.symm.trans h1
        rw [Option.map_some', if_pos hkk]
      · rw [if_neg h2, if_neg h2]
        exact ih
    · rw [if_neg h1]
      simp only [alookup]
      by_cases h2 : p.1 = k'
      · rw [if_pos h2, if_pos h2]
        have hkk : ¬ k' = k := fun hk => h1 (h2.trans hk)
        rw [Option.map_some', if_neg hkk]
      · rw [if_neg h2, if_neg h2]
        exact ih

theorem alookup_append_singleton_ne {β : Type} (m : List (String × β))
    (k k' : String) (z : β) (h : k' ≠ k) :
    alookup (m ++ [(k, z)]) k' = alookup m k' := by
  rw [alookup_append]
  cases alookup m k' with
  | some v => rfl
  | none =>
    simp only [alookup]
    rw [if_neg (fun he : k = k' => h he.symm)]

theorem entriesPos_bump (m : List (String × CatStats)) (k status : String)
    (h : entriesPos m) : entriesPos (bump m k status) := by
  intro k' st hst
  unfold bump at hst
  rw [alookup_bumpmap] at hst
  by_cases hkk : k' = k
  · cases hm1 : alookup
        (if (alookup m k).isSome then m
         else m ++ [(k, (⟨0, 0, 0, 0⟩ : CatStats))]) k' with
    | none => rw [hm1] at hst; cases hst
    | some v =>
      rw [hm1] at hst
      simp only [Option.map_some', Option.some.injEq, if_pos hkk] at hst
      rw [← hst]
      simp [incStats]
  · have hm : alookup
        (if (alookup m k).isSome then m
         else m ++ [(k, (⟨0, 0, 0, 0⟩ : CatStats))]) k' = alookup m k' := by
      split
      · rfl
      · exact alookup_append_singleton_ne m k k' _ hkk
    rw [hm] at hst
    cases hv : alookup m k' with
    | none => rw [hv] at hst; cases hst
    | some v =>
      rw [hv] at hst
      simp only [Option.map_some', Option.some.injEq, if_neg hkk] at hst
      rw [← hst]
      exact h k' v hv

theorem entriesPos_foldl (docs : List AggDoc) (a : AggAcc)
    (hm : entriesPos a.byModel) (hs : entriesPos a.byStyle)
    (hz : entriesPos a.bySize) :
    entriesPos (docs.foldl aggStep a).byModel ∧
    entriesPos (docs.foldl aggStep a).byStyle ∧
    entriesPos (docs.foldl aggStep a).bySize := by
  induction docs generalizing a with
  | nil => exact ⟨hm, hs, hz⟩
  | cons d rest ih =>
    exact ih (aggStep a d) (entriesPos_bump _ _ _ hm)
      (entriesPos_bump _ _ _ hs) (entriesPos_bump _ _ _ hz)

theorem alookup_finishRates (m : List (String × CatStats)) (k : String) :
    alookup (finishRates m) k = (alookup m k).map fun v =>
      if v.total > 0 then
        { v with failureRate := (v.failed : ℚ) / (v.total : ℚ) * 100 }
      else v := by
  induction m with
  | nil => rfl
  | cons p rest ih =>
    simp only [finishRates, List.map] at ih ⊢
    simp only [alookup]
    by_cases hk : p.1 = k
    · rw [if_pos hk, if_pos hk, Option.map_some']
    · rw [if_neg hk, if_neg hk]
      exact ih

theorem finished_entry_rate (m : List (String × CatStats)) (hm : entriesPos m)
    (k : String) (st : CatStats) (h : alookup (finishRates m) k = some st) :
    st.failureRate = (st.failed : ℚ) / (st.total : ℚ) * 100 := by
  rw [alookup_finishRates] at h
  cases hv : alookup m k with
  | none => rw [hv] at h; cases h
  | some v =>
    rw [hv] at h
    simp only [Option.map_some', Option.some.injEq] at h
    have hpos : v.total > 0 := hm k v hv
    rw [if_pos hpos] at h
    rw [← h]

/-- C8: the aggregated weekly report over a set of in-window requests has
totalRequests equal to the number of requests, totalCreditsSpent the sum of
cost over completed requests, totalCreditsRefunded the sum of cost over
failed requests, successRate equal to completed/total*100 (0 when there are
no requests), and every per-dimension entry's failureRate equal to
failed/total*100 for that entry. -/
theorem aggregate_report_correct (docs : List AggDoc) :
    (aggregate docs).totalRequests = docs.length ∧
    (aggregate docs).totalCreditsSpent =
      ((docs.filter fun d => d.status = "completed").map AggDoc.cost).sum ∧
    (aggregate docs).totalCreditsRefunded =
      ((docs.filter fun d => d.status = "failed").map AggDoc.cost).sum ∧
    (docs = [] → (aggregate docs).successRate = 0) ∧
    (docs ≠ [] → (aggregate docs).successRate =
      ((docs.filter fun d => d.status = "completed").length : ℚ) /
        (docs.length : ℚ) * 100) ∧
    (∀ k st, alookup (aggregate docs).byModel k = some st →
      st.failureRate = (st.failed : ℚ) / (st.total : ℚ) * 100) ∧
    (∀ k st, alookup (aggregate docs).byStyle k = some st →
      st.failureRate = (st.failed : ℚ) / (st.total : ℚ) * 100) ∧
    (∀ k st, alookup (aggregate docs).bySize k = some st →
      st.failureRate = (st.failed : ℚ) / (st.total : ℚ) * 100) := by
  have hTR : (docs.foldl aggStep aggInit).totalRequests = docs.length := by
    rw [foldl_aggStep_totalRequests]
    simp [aggInit]
  have hSp : (docs.foldl aggStep aggInit).spent =
      ((docs.filter fun d => d.status = "completed").map AggDoc.cost).sum := by
    rw [foldl_aggStep_spent]
    simp [aggInit]
  have hRef : (docs.foldl aggStep aggInit).refunded =
      ((docs.filter fun d => d.status = "failed").map AggDoc.cost).sum := by
    rw [foldl_aggStep_refunded]
    simp [aggInit]
  have hSucc : (docs.foldl aggStep aggInit).successful =
      (docs.filter fun d => d.status = "completed").length := by
    rw [foldl_aggStep_successful]
    simp [aggInit]
  have hEmpty : entriesPos ([] : List (String × CatStats)) := by
    intro k st hst
    cases hst
  have hPos := entriesPos_foldl docs aggInit hEmpty hEmpty hEmpty
  refine ⟨?_, ?_, ?_, ?_, ?_, ?_, ?_, ?_⟩
  · simp only [aggregate]
    exact hTR
  · simp only [aggregate]
    exact hSp
  · simp only [aggregate]
    exact hRef
  · intro hnil
    subst hnil
    rfl
  · intro hne
    have hlen : 0 < docs.length := List.length_pos.mpr hne
    simp only [aggregate]
    rw [if_pos (show (docs.foldl aggStep aggInit).totalRequests > 0 by omega)]
    rw [hSucc, hTR]
  · intro k st hst
    simp only [aggregate] at hst
    split at hst
    · exact finished_entry_rate _ hPos.1 _ _ hst
    · rename_i hz
      have : docs.length = 0 := by omega
      have hnil : docs = [] := List.length_eq_zero.mp this
      subst hnil
      cases hst
  · intro k st hst
    simp only [aggregate] at hst
    split at hst
    · exact finished_entry_rate _ hPos.2.1 _ _ hst
    · rename_i hz
      have : docs.length = 0 := by omega
      have hnil : docs = [] := List.length_eq_zero.mp this
      subst hnil
      cases hst
  · intro k st hst
    simp only [aggregate] at hst
    split at hst
    · exact finished_entry_rate _ hPos.2.2 _ _ hst
    · rename_i hz
      have : docs.length = 0 := by omega
      have hnil : docs = [] := List.length_eq_zero.mp this
      subst hnil
      cases hst

/-- Witness for C8 on three concrete requests (two completed with costs 3 and
1, one failed with cost 4). -/
theorem aggregate_report_correct_witness :
    (aggregate docsW).totalRequests = docsW.length ∧
    (aggregate docsW).totalCreditsSpent =
      ((docsW.filter fun d => d.status = "completed").map AggDoc.cost).sum ∧
    (docsW ≠ [] → (aggregate docsW).successRate =
      ((docsW.filter fun d => d.status = "completed").length : ℚ) /
        (docsW.length : ℚ) * 100) := by
  have h := aggregate_report_correct docsW
  exact ⟨h.1, h.2.1, h.2.2.2.2.1⟩

end CaseStudy
